import Mathlib

/-!
Shallow embedding of the ZK-Battleship client logic:
board model and commitment engine (boardProver), outcome verifier and
claim builders (shotProver), placement checks (board-utils), the
ship-placement fleet (ShipPlacement / ShipType), and the game-page
event handler (GamePage).  Coordinates and grid cell values are JS
numbers, embedded as Int (coordinates) and Nat (cell values, sizes).
The keccak256 hash is embedded as an explicit parameter
H : List Nat -> Nat over the exact byte sequences the code hashes.
-/

deriving instance DecidableEq for Except

namespace Battleship

/-- A coordinate object `\x7bx, y\x7d` as used in ShotMap entries and ship cells. -/
structure Coord where
  x : Int
  y : Int
deriving DecidableEq, Repr

/-- `Ship` from boardProver: size, origin and orientation. -/
structure Ship where
  size : Nat
  x : Int
  y : Int
  horizontal : Bool
deriving DecidableEq, Repr

/-- The cell grid: `number[][]`, 0 = empty, 1 = ship. -/
abbrev Grid := List (List Nat)

/-- `Board` from boardProver: ship list plus derived grid. -/
structure Board where
  ships : List Ship
  grid : Grid
deriving DecidableEq, Repr

/-- Errors thrown by the embedded functions (each constructor is one
`throw new Error(...)` site; `typeError` stands for the implicit JS
TypeError on indexing an undefined row). -/
inductive PErr where
  | outOfBounds (x y : Int)
  | shipOutOfBounds (x y : Int)
  | overlap (x y : Int)
  | claimMismatch (claimed actual : Bool)
  | invalidShipCount (n : Nat)
  | invalidSizeCount (size : Nat)
  | gridMismatch
  | bytes32TooLong
  | incompleteSink
  | typeError
deriving DecidableEq, Repr

/-- `BOARD_SIZE` constant. -/
def BOARD_SIZE : Nat := 10

/-- `SHIP_SIZES` constant from boardProver. -/
def SHIP_SIZES : List Nat := [5, 4, 3, 3, 2]

/-- Read `grid[y][x]`; out-of-range reads give 0 (call sites bound-check first). -/
def gridGet (g : Grid) (y x : Nat) : Nat := (g.getD y []).getD x 0

/-- Write `grid[y][x] = v` (in-range at every call site). -/
def gridSet (g : Grid) (y x : Nat) (v : Nat) : Grid :=
  g.set y ((g.getD y []).set x v)

/-- The fresh 10x10 all-zero grid built by `createBoard`. -/
def emptyGrid : Grid := List.replicate 10 (List.replicate 10 0)

/-- Cells of a ship, in placement order: for i in 0..size, the cell is
`(x+i, y)` when horizontal, `(x, y+i)` when vertical. -/
def shipCells (s : Ship) : List Coord :=
  (List.range s.size).map fun (i : Nat) =>
    if s.horizontal then ⟨s.x + (i : Int), s.y⟩ else ⟨s.x, s.y + (i : Int)⟩

/-- One iteration of the placement loop in `createBoard`: bounds check
(`x >= BOARD_SIZE || y >= BOARD_SIZE`), then the overlap check
`grid[y][x] !== 0` (a negative y makes `grid[y]` undefined, a JS
TypeError; a negative x makes `grid[y][x]` undefined, which is `!== 0`),
then `grid[y][x] = 1`. -/
def placeCell (g : Grid) (x y : Int) : Except PErr Grid :=
  if 10 ≤ x ∨ 10 ≤ y then .error (.shipOutOfBounds x y)
  else if y < 0 then .error .typeError
  else if x < 0 then .error (.overlap x y)
  else if gridGet g y.toNat x.toNat ≠ 0 then .error (.overlap x y)
  else .ok (gridSet g y.toNat x.toNat 1)

/-- Run the placement loop over a list of cells, stopping at the first error. -/
def placeCells : List Coord → Grid → Except PErr Grid
  | [], g => .ok g
  | c :: cs, g =>
    match placeCell g c.x c.y with
    | .error e => .error e
    | .ok g' => placeCells cs g'

/-- The inner `for i in 0..ship.size` loop of `createBoard`, placing the
cells of one ship (`shipCells` lists exactly the (x, y) the loop computes). -/
def placeShip (g : Grid) (s : Ship) : Except PErr Grid :=
  placeCells (shipCells s) g

/-- The outer `for ship of ships` loop of `createBoard`. -/
def placeShips : List Ship → Grid → Except PErr Grid
  | [], g => .ok g
  | s :: ss, g =>
    match placeShip g s with
    | .error e => .error e
    | .ok g' => placeShips ss g'

/-- `createBoard(ships)` from boardProver. -/
def createBoard (ships : List Ship) : Except PErr Board :=
  match placeShips ships emptyGrid with
  | .error e => .error e
  | .ok g => .ok ⟨ships, g⟩

/-- `board.grid.flat().filter(cell => cell === 1).length`. -/
def countOccupied (g : Grid) : Nat :=
  ((g.flatten).filter fun c => c == 1).length

/-- The keys of the `expectedCounts` map of `validateBoard`, in JS Map
insertion order for SHIP_SIZES = [5,4,3,3,2]. -/
def expectedSizeKeys : List Nat := [5, 4, 3, 2]

/-- The first expected ship size whose multiplicity in `sizes` differs from
its multiplicity in SHIP_SIZES (the first size `validateBoard` throws on). -/
def firstSizeMismatch (sizes : List Nat) : Option Nat :=
  expectedSizeKeys.find? fun sz => sizes.count sz != SHIP_SIZES.count sz

/-- `validateBoard(board)` from boardProver: ship count, per-size counts,
then the reconstructed-grid occupied-count comparison (errors from the
inner `createBoard` propagate, as in the source). -/
def validateBoard (b : Board) : Except PErr Bool :=
  if b.ships.length ≠ SHIP_SIZES.length then .error (.invalidShipCount b.ships.length)
  else match firstSizeMismatch (b.ships.map Ship.size) with
  | some sz => .error (.invalidSizeCount sz)
  | none =>
    match createBoard b.ships with
    | .error e => .error e
    | .ok reconstructed =>
      if countOccupied b.grid ≠ countOccupied reconstructed.grid then .error .gridMismatch
      else .ok true

/-- `checkShotResult(board, x, y)` from shotProver. -/
def checkShotResult (b : Board) (x y : Int) : Except PErr Bool :=
  if x < 0 ∨ 10 ≤ x ∨ y < 0 ∨ 10 ≤ y then .error (.outOfBounds x y)
  else .ok (gridGet b.grid y.toNat x.toNat == 1)

/-- `ShotMap` from shotProver: hit and miss coordinate lists. -/
structure ShotMap where
  hits : List Coord
  misses : List Coord
deriving DecidableEq, Repr

/-- `createEmptyShotMap()`. -/
def createEmptyShotMap : ShotMap := ⟨[], []⟩

/-- `addShot(shotMap, x, y, isHit)`: push the coordinate onto the
corresponding list of a fresh copy. -/
def addShot (m : ShotMap) (x y : Int) (isHit : Bool) : ShotMap :=
  if isHit then { m with hits := m.hits ++ [⟨x, y⟩] }
  else { m with misses := m.misses ++ [⟨x, y⟩] }

/-- `checkAllShipsSunk(board, shotMap)`. -/
def checkAllShipsSunk (b : Board) (m : ShotMap) : Bool :=
  m.hits.length == countOccupied b.grid

/-- ShotMaps reachable from `createEmptyShotMap` by `addShot` steps. -/
inductive ReachableShotMap : ShotMap → Prop
  | empty : ReachableShotMap createEmptyShotMap
  | step (m : ShotMap) (x y : Int) (b : Bool) :
      ReachableShotMap m → ReachableShotMap (addShot m x y b)

/-! ## Commitment engine (boardProver) -/

/-- UTF-8 bytes of the decimal string of a number (what `join('')` followed
by `toUtf8Bytes` contributes for one cell value). -/
def natUtf8 (n : Nat) : List Nat := (Nat.repr n).data.map Char.toNat

/-- Bytes of `serializeBoard(board)`: `board.grid.flat().join('')`, row-major. -/
def serializeBoardBytes (b : Board) : List Nat :=
  (b.grid.flatten.map natUtf8).flatten

/-- ethers `formatBytes32String`: UTF-8 bytes of the salt, rejected above
31 bytes, zero-padded on the right to 32 bytes. -/
def formatBytes32 (salt : List Nat) : Except PErr (List Nat) :=
  if 31 < salt.length then .error .bytes32TooLong
  else .ok (salt ++ List.replicate (32 - salt.length) 0)

/-- The byte sequence hashed by `generateBoardCommitment`:
`solidityPack(['string','bytes32'], [boardString, formatBytes32String(salt)])`,
i.e. the board-string bytes followed by the 32 salt bytes. -/
def commitmentBytes (b : Board) (salt : List Nat) : Except PErr (List Nat) :=
  match formatBytes32 salt with
  | .error e => .error e
  | .ok salt32 => .ok (serializeBoardBytes b ++ salt32)

/-- `generateBoardCommitment(board, salt)`, with keccak256 abstracted as `H`. -/
def generateBoardCommitment (H : List Nat → Nat) (b : Board) (salt : List Nat) :
    Except PErr Nat :=
  (commitmentBytes b salt).map H

/-- An injective stand-in hash used to instantiate `H` in witnesses. -/
def encodeListNat : List Nat → Nat := Encodable.encode

/-! ## Claim builders (shotProver) -/

/-- The 100-entry flattened cell array built by both proof builders:
start from `new Array(100).fill(0)` and set index `y*10+x` to 1 for every
occupied grid cell. -/
def boardCells (b : Board) : List Nat :=
  (List.range 10).foldl
    (fun acc y =>
      (List.range 10).foldl
        (fun acc2 x => if gridGet b.grid y x == 1 then acc2.set (y * 10 + x) 1 else acc2)
        acc)
    (List.replicate 100 0)

/-- The circuit input object built by `generateShotProof`. -/
structure ShotCircuitInput where
  board : List Nat
  shot_x : Int
  shot_y : Int
  is_hit : Nat
  salt : List Nat
  board_commitment : Nat
deriving DecidableEq, Repr

/-- `generateShotProof(board, x, y, isHit, salt)` up to the circuit input it
hands to the external prover (the proving call itself is an external
collaborator). -/
def generateShotProof (H : List Nat → Nat) (b : Board) (x y : Int)
    (isHit : Bool) (salt : List Nat) : Except PErr ShotCircuitInput :=
  match checkShotResult b x y with
  | .error e => .error e
  | .ok actual =>
    if actual != isHit then .error (.claimMismatch isHit actual)
    else
      match generateBoardCommitment H b salt with
      | .error e => .error e
      | .ok commitment =>
        .ok ⟨boardCells b, x, y, if isHit then 1 else 0, salt, commitment⟩

/-- Row-major bit index `y*10 + x` of a coordinate. -/
def bitIndex (c : Coord) : Nat := (c.y * 10 + c.x).toNat

/-- The shot-history bitmap built inside `generateGameEndProof`:
`new Array(100).fill(0)` with `shotHistory[hit.y*10+hit.x] = 1` for each
entry of `shotMap.hits` (the source iterates the hit list only). -/
def shotHistory (m : ShotMap) : List Nat :=
  m.hits.foldl (fun sh c => sh.set (bitIndex c) 1) (List.replicate 100 0)

/-- Bytes hashed for `shotHistoryHash`: UTF-8 of `shotHistory.join('')`. -/
def shotHistoryStrBytes (m : ShotMap) : List Nat :=
  ((shotHistory m).map natUtf8).flatten

/-- The circuit input object built by `generateGameEndProof`. -/
structure GameEndCircuitInput where
  board : List Nat
  shot_history : List Nat
  salt : List Nat
  board_commitment : Nat
  shot_history_hash : Nat
deriving DecidableEq, Repr

/-- `generateGameEndProof(board, shotMap, salt)` up to the circuit input. -/
def generateGameEndProof (H : List Nat → Nat) (b : Board) (m : ShotMap)
    (salt : List Nat) : Except PErr GameEndCircuitInput :=
  if !(checkAllShipsSunk b m) then .error .incompleteSink
  else
    match generateBoardCommitment H b salt with
    | .error e => .error e
    | .ok commitment =>
      .ok ⟨boardCells b, shotHistory m, salt, commitment, H (shotHistoryStrBytes m)⟩

/-! ## Placement helpers (board-utils) and the placement fleet -/

/-- The 3x3-neighborhood scan of `isValidPlacement` around one ship cell:
out-of-bounds neighbors are skipped, an occupied neighbor fails the check. -/
def neighborFree (g : Grid) (x y : Int) : Bool :=
  ([-1, 0, 1] : List Int).all fun dx =>
    ([-1, 0, 1] : List Int).all fun dy =>
      let cx := x + dx
      let cy := y + dy
      if cx < 0 ∨ 10 ≤ cx ∨ cy < 0 ∨ 10 ≤ cy then true
      else !(gridGet g cy.toNat cx.toNat == 1)

/-- `isValidPlacement(board, ship)` from board-utils: orientation-specific
bounds check, then the no-touch neighborhood scan over every ship cell. -/
def isValidPlacement (b : Board) (s : Ship) : Bool :=
  if s.horizontal ∧ (s.x < 0 ∨ 10 < s.x + (s.size : Int) ∨ s.y < 0 ∨ 10 ≤ s.y) then false
  else if ¬s.horizontal = true ∧ (s.x < 0 ∨ 10 ≤ s.x ∨ s.y < 0 ∨ 10 < s.y + (s.size : Int)) then false
  else (shipCells s).all fun c => neighborFree b.grid c.x c.y

/-- The `ShipType` enum from board-utils / noirConfig. -/
inductive ShipType where
  | CARRIER
  | BATTLESHIP
  | CRUISER
  | SUBMARINE
  | DESTROYER
deriving DecidableEq, Repr

/-- Numeric value of each `ShipType` member (note SUBMARINE = 2, DESTROYER = 1). -/
def ShipType.value : ShipType → Nat
  | .CARRIER => 5
  | .BATTLESHIP => 4
  | .CRUISER => 3
  | .SUBMARINE => 2
  | .DESTROYER => 1

/-- The initial `shipsToPlace` list of the ShipPlacement component. -/
def shipsToPlace : List ShipType :=
  [.CARRIER, .BATTLESHIP, .CRUISER, .SUBMARINE, .DESTROYER]

/-! ## Concrete fleets used in witnesses and counterexamples -/

/-- A standard {5,4,3,3,2} fleet on rows 0, 2, 4, 6, 8 (in-bounds, disjoint,
not even touching). -/
def stdFleet : List Ship :=
  [⟨5, 0, 0, true⟩, ⟨4, 0, 2, true⟩, ⟨3, 0, 4, true⟩, ⟨3, 0, 6, true⟩, ⟨2, 0, 8, true⟩]

/-- The board `createBoard` builds from `stdFleet`. -/
def stdBoard : Board :=
  match createBoard stdFleet with
  | .ok b => b
  | .error _ => ⟨[], emptyGrid⟩

/-- The 17 ship cells of `stdFleet`, row-major. -/
def stdHits : List Coord :=
  [⟨0, 0⟩, ⟨1, 0⟩, ⟨2, 0⟩, ⟨3, 0⟩, ⟨4, 0⟩,
   ⟨0, 2⟩, ⟨1, 2⟩, ⟨2, 2⟩, ⟨3, 2⟩,
   ⟨0, 4⟩, ⟨1, 4⟩, ⟨2, 4⟩,
   ⟨0, 6⟩, ⟨1, 6⟩, ⟨2, 6⟩,
   ⟨0, 8⟩, ⟨1, 8⟩]

/-- A shot map holding every ship cell of `stdFleet` as a hit. -/
def shotMap17 : ShotMap := ⟨stdHits, []⟩

/-- A shot map holding all but one ship cell of `stdFleet` as hits. -/
def shotMap16 : ShotMap := ⟨stdHits.take 16, []⟩

/-- The {5,4,3,2,1} fleet the placement component offers, laid out on
rows 0, 2, 4, 6, 8. -/
def placementFleet : List Ship :=
  [⟨5, 0, 0, true⟩, ⟨4, 0, 2, true⟩, ⟨3, 0, 4, true⟩, ⟨2, 0, 6, true⟩, ⟨1, 0, 8, true⟩]

/-- A {5,4,3,3,2} fleet in which the first two ships touch vertically
(rows 0 and 1) without sharing a cell. -/
def touchFleet : List Ship :=
  [⟨5, 0, 0, true⟩, ⟨4, 0, 1, true⟩, ⟨3, 0, 3, true⟩, ⟨3, 0, 5, true⟩, ⟨2, 0, 7, true⟩]

/-! ## GamePage event handling (the game-events useEffect) -/

/-- Client game phases, in the order of the `GamePhase` enum. -/
inductive GamePhase where
  | CONNECTING
  | WAITING_FOR_OPPONENT
  | PLACING_SHIPS
  | WAITING_FOR_OPPONENT_BOARD
  | PLAYING
  | GAME_OVER
deriving DecidableEq, Repr

/-- Position of a phase along the progression order (the enum ordinal). -/
def phaseIdx : GamePhase → Nat
  | .CONNECTING => 0
  | .WAITING_FOR_OPPONENT => 1
  | .PLACING_SHIPS => 2
  | .WAITING_FOR_OPPONENT_BOARD => 3
  | .PLAYING => 4
  | .GAME_OVER => 5

/-- The discrete relay events the game-events effect dispatches on
(fields kept are the ones the handler reads). -/
inductive GameEvent where
  | player_joined (address : String)
  | contract_registered
  | board_submitted (player : String) (allBoardsSubmitted : Bool)
  | game_started
  | shot_fired (player : String) (x y : Int)
  | shot_result (player : String) (x y : Int) (isHit : Bool)
  | game_over (winner : String)
  | session_state
  | chat
  | pong
  | errorEvent (msg : String)
deriving DecidableEq, Repr

/-- The local component state the event handler mutates. -/
structure ClientState where
  gamePhase : GamePhase
  isPlayerTurn : Bool
  winner : Option String
  shotsAtPlayer : ShotMap
  shotsAtOpponent : ShotMap
  isMakingShot : Bool
  isProcessingShot : Bool
deriving DecidableEq, Repr

/-- The surrounding component context the handler reads but does not set. -/
structure ClientCtx where
  account : Option String
  gameAddress : Option String
  playerBoard : Option Board
  playerBoardSalt : Option (List Nat)
  playerBoardCommitment : Option Nat
deriving DecidableEq, Repr

/-- `toLowerCase` on an address string (addresses are ASCII hex). -/
def toLowerAscii (s : String) : String := ⟨s.data.map Char.toLower⟩

/-- `player.toLowerCase() === account?.toLowerCase()` (false when the
account is null, as comparing against undefined is). -/
def eqAddr (p : String) (acct : Option String) : Bool :=
  match acct with
  | some a => toLowerAscii p == toLowerAscii a
  | none => false

/-- `handleOpponentShot(x, y)`: bail out without required data; compute the
hit, build the shot proof and submit (externals assumed to succeed); on
success grant the turn, record the shot, and when the full fleet is sunk run
the game-end path and enter GAME_OVER.  Thrown errors land in the catch
(message only) and the finally clears the processing flag. -/
def handleOpponentShot (H : List Nat → Nat) (ctx : ClientCtx) (s : ClientState)
    (x y : Int) : ClientState :=
  match ctx.account, ctx.gameAddress, ctx.playerBoard, ctx.playerBoardSalt with
  | some _, some _, some board, some salt =>
    match checkShotResult board x y with
    | .error _ => { s with isProcessingShot := false }
    | .ok isHit =>
      match generateShotProof H board x y isHit salt with
      | .error _ => { s with isProcessingShot := false }
      | .ok _ =>
        let s1 := { s with isPlayerTurn := true,
                           shotsAtPlayer := addShot s.shotsAtPlayer x y isHit }
        if isHit && ctx.playerBoardCommitment.isSome
            && checkAllShipsSunk board (addShot s.shotsAtPlayer x y isHit) then
          match generateGameEndProof H board (addShot s.shotsAtPlayer x y isHit) salt with
          | .error _ => { s1 with isProcessingShot := false }
          | .ok _ => { s1 with gamePhase := .GAME_OVER, isProcessingShot := false }
        else { s1 with isProcessingShot := false }
  | _, _, _, _ => s

/-- The switch of the game-events useEffect applied to the latest event. -/
def applyEvent (H : List Nat → Nat) (ctx : ClientCtx) (s : ClientState) :
    GameEvent → ClientState
  | .board_submitted player allBoardsSubmitted =>
    if eqAddr player ctx.account then
      { s with gamePhase := .WAITING_FOR_OPPONENT_BOARD }
    else if allBoardsSubmitted then
      { s with gamePhase := .PLAYING }
    else s
  | .shot_fired player x y =>
    if !eqAddr player ctx.account then
      handleOpponentShot H ctx { s with isProcessingShot := true } x y
    else s
  | .shot_result player x y isHit =>
    if eqAddr player ctx.account then
      { s with shotsAtOpponent := addShot s.shotsAtOpponent x y isHit,
               isMakingShot := false }
    else
      { s with shotsAtPlayer := addShot s.shotsAtPlayer x y isHit,
               isProcessingShot := false }
  | .game_over winner =>
    { s with gamePhase := .GAME_OVER, winner := some winner }
  | _ => s

/-! ## Predicates and fixtures used in the statements -/

/-- A coordinate inside the 10x10 grid. -/
abbrev coordInBounds (c : Coord) : Prop :=
  0 ≤ c.x ∧ c.x < 10 ∧ 0 ≤ c.y ∧ c.y < 10

/-- Every cell value of the grid is 0 or 1. -/
abbrev cells01 (g : Grid) : Prop := ∀ row ∈ g, ∀ v ∈ row, v = 0 ∨ v = 1

/-- The grid is 10 rows of 10 cells. -/
abbrev wfShape (g : Grid) : Prop := g.length = 10 ∧ ∀ row ∈ g, row.length = 10

/-- Some ship of the list has the coordinate in its footprint. -/
abbrev coveredBy (ships : List Ship) (c : Coord) : Prop :=
  ∃ s ∈ ships, c ∈ shipCells s

/-- Every footprint cell of the ship is inside the grid. -/
abbrev shipInBounds (s : Ship) : Prop := ∀ c ∈ shipCells s, coordInBounds c

/-- No two distinct ships of the list share a footprint cell. -/
abbrev shipsDisjoint (ships : List Ship) : Prop :=
  List.Pairwise (fun a b => ∀ c ∈ shipCells a, c ∉ shipCells b) ships

/-- Two ships have 8-neighbor-adjacent (touching) footprint cells. -/
abbrev shipsTouch (a b : Ship) : Prop :=
  ∃ ca ∈ shipCells a, ∃ cb ∈ shipCells b,
    (ca.x - cb.x).natAbs ≤ 1 ∧ (ca.y - cb.y).natAbs ≤ 1

/-- A shot map holding the same shot on both sides, reachable by two
`addShot` steps from the empty map. -/
def bothSides : ShotMap := addShot (addShot createEmptyShotMap 0 0 true) 0 0 false

/-- `shotMap17` with the hit list reversed. -/
def shotMap17rev : ShotMap := ⟨stdHits.reverse, []⟩

/-- A shipless board over the all-zero grid. -/
def emptyBoard : Board := ⟨[], emptyGrid⟩

/-- A 1-byte salt, the UTF-8 of the string made of the single character a. -/
def salt97 : List Nat := [97]

/-- `salt97` extended by one NUL byte (a 2-byte salt). -/
def salt970 : List Nat := [97, 0]

/-- A 32-byte salt, the length `generateSalt` actually produces
(hexlify of 16 random bytes, 0x stripped: 32 hex characters). -/
def saltLong : List Nat := List.replicate 32 48

/-- The board built from `placementFleet`. -/
def placementBoard : Board :=
  match createBoard placementFleet with
  | .ok b => b
  | .error _ => emptyBoard

/-- A context whose local account is the address a. -/
def ctxA : ClientCtx := ⟨some "a", some "g", none, none, none⟩

/-- A local state sitting in the PLAYING phase. -/
def stPlaying : ClientState :=
  ⟨.PLAYING, true, none, createEmptyShotMap, createEmptyShotMap, false, false⟩

/-! ## List helper lemmas -/

theorem listGetD_set_self {α : Type} (l : List α) : ∀ (n : Nat) (a d : α), n < l.length →
    (l.set n a).getD n d = a := by
  induction l with
  | nil => intro n a d h; simp at h
  | cons x xs ih =>
    intro n a d h
    cases n with
    | zero => rfl
    | succ k => simpa using ih k a d (by simpa using h)

theorem listGetD_set_ne {α : Type} (l : List α) : ∀ (n m : Nat) (a d : α), n ≠ m →
    (l.set n a).getD m d = l.getD m d := by
  induction l with
  | nil => intro n m a d _; rfl
  | cons x xs ih =>
    intro n m a d h
    cases n with
    | zero =>
      cases m with
      | zero => exact absurd rfl h
      | succ j => rfl
    | succ k =>
      cases m with
      | zero => rfl
      | succ j => simpa using ih k j a d (by omega)

theorem listGetD_replicate_gen {α : Type} (a d : α) : ∀ (n i : Nat),
    (List.replicate n a).getD i d = if i < n then a else d := by
  intro n
  induction n with
  | zero => intro i; simp
  | succ k ih =>
    intro i
    cases i with
    | zero => simp
    | succ j =>
      rw [List.replicate_succ]
      show (List.replicate k a).getD j d = _
      rw [ih j]
      by_cases h : j < k
      · rw [if_pos h, if_pos (by omega)]
      · rw [if_neg h, if_neg (by omega)]

theorem listGetD_replicate (n i : Nat) : (List.replicate n (0 : Nat)).getD i 0 = 0 := by
  rw [listGetD_replicate_gen]
  split <;> rfl

theorem listGetD_mem_or {α : Type} (l : List α) (i : Nat) (d : α) :
    l.getD i d ∈ l ∨ l.getD i d = d := by
  by_cases h : i < l.length
  · left
    rw [List.getD_eq_getElem?_getD, List.getElem?_eq_getElem h, Option.getD_some]
    exact List.getElem_mem h
  · right
    rw [List.getD_eq_getElem?_getD, List.getElem?_eq_none (by omega), Option.getD_none]

/-! ## Grid lemmas -/

theorem wfShape_emptyGrid : wfShape emptyGrid := by
  constructor
  · rfl
  · intro row hrow
    rw [List.eq_of_mem_replicate hrow]
    rfl

theorem cells01_emptyGrid : cells01 emptyGrid := by
  intro row hrow v hv
  rw [List.eq_of_mem_replicate hrow] at hv
  exact Or.inl (List.eq_of_mem_replicate hv)

theorem gridGet_emptyGrid (y x : Nat) : gridGet emptyGrid y x = 0 := by
  unfold gridGet emptyGrid
  rw [listGetD_replicate_gen]
  split
  · rw [listGetD_replicate_gen]
    split <;> rfl
  · rfl

theorem countOccupied_cons (r : List Nat) (g : Grid) :
    countOccupied (r :: g) = (r.filter fun c => c == 1).length + countOccupied g := by
  simp [countOccupied, List.filter_append]

theorem rowCount_set (l : List Nat) : ∀ x : Nat, x < l.length → l.getD x 0 = 0 →
    ((l.set x 1).filter fun c => c == 1).length = (l.filter fun c => c == 1).length + 1 := by
  induction l with
  | nil => intro x hx _; simp at hx
  | cons v t ih =>
    intro x hx h0
    cases x with
    | zero =>
      have hv : v = 0 := h0
      subst hv
      simp [List.filter_cons]
    | succ k =>
      have hrec := ih k (by simpa using hx) h0
      show ((v :: t.set k 1).filter fun c => c == 1).length = _
      rw [List.filter_cons, List.filter_cons]
      cases hv : (v == 1) <;> simp [hrec]

theorem countOccupied_gridSet (g : Grid) : ∀ y x : Nat, y < g.length →
    x < (g.getD y []).length → gridGet g y x = 0 →
    countOccupied (gridSet g y x 1) = countOccupied g + 1 := by
  induction g with
  | nil => intro y x hy _ _; simp at hy
  | cons r t ih =>
    intro y x hy hx h0
    cases y with
    | zero =>
      show countOccupied ((r.set x 1) :: t) = _
      rw [countOccupied_cons, countOccupied_cons, rowCount_set r x hx h0]
      omega
    | succ k =>
      show countOccupied (r :: gridSet t k x 1) = _
      rw [countOccupied_cons, countOccupied_cons, ih k x (by simpa using hy) hx h0]
      omega

theorem wfRow_of_wf (g : Grid) (hwf : wfShape g) (y : Nat) (hy : y < 10) :
    (g.getD y []).length = 10 := by
  obtain ⟨hlen, hrows⟩ := hwf
  have hy' : y < g.length := by omega
  have hrow : g.getD y [] = g[y] := by
    rw [List.getD_eq_getElem?_getD, List.getElem?_eq_getElem hy', Option.getD_some]
  rw [hrow]
  exact hrows _ (List.getElem_mem hy')

theorem wfShape_gridSet (g : Grid) (hwf : wfShape g) (y x v : Nat) (hy : y < 10) :
    wfShape (gridSet g y x v) := by
  refine ⟨by simp [gridSet, hwf.1], ?_⟩
  intro row hrow
  rcases List.mem_or_eq_of_mem_set hrow with h | h
  · exact hwf.2 row h
  · subst h
    rw [List.length_set]
    exact wfRow_of_wf g hwf y hy

theorem cells01_gridSet (g : Grid) (h01 : cells01 g) (y x : Nat) :
    cells01 (gridSet g y x 1) := by
  intro row hrow v hv
  rcases List.mem_or_eq_of_mem_set hrow with h | h
  · exact h01 row h v hv
  · subst h
    rcases List.mem_or_eq_of_mem_set hv with h2 | h2
    · rcases listGetD_mem_or g y [] with hmem | hemp
      · exact h01 _ hmem v h2
      · rw [hemp] at h2
        simp at h2
    · exact Or.inr h2

theorem gridGet_mem01 (g : Grid) (h01 : cells01 g) (y x : Nat) :
    gridGet g y x = 0 ∨ gridGet g y x = 1 := by
  unfold gridGet
  rcases listGetD_mem_or (g.getD y []) x 0 with hm | h0
  · rcases listGetD_mem_or g y [] with hg | hge
    · exact h01 _ hg _ hm
    · rw [hge] at hm
      simp at hm
  · exact Or.inl h0

theorem gridGet_gridSet (g : Grid) (y x v : Nat) (hy : y < g.length)
    (hx : x < (g.getD y []).length) (y' x' : Nat) :
    gridGet (gridSet g y x v) y' x'
      = if y' = y ∧ x' = x then v else gridGet g y' x' := by
  by_cases hyy : y' = y
  · subst hyy
    unfold gridGet gridSet
    rw [listGetD_set_self g y' _ [] hy]
    by_cases hxx : x' = x
    · subst hxx
      rw [listGetD_set_self _ x' v 0 hx, if_pos ⟨rfl, rfl⟩]
    · rw [listGetD_set_ne _ x x' v 0 (fun h => hxx h.symm), if_neg (fun h => hxx h.2)]
  · unfold gridGet gridSet
    rw [listGetD_set_ne g y y' _ [] (fun h => hyy h.symm), if_neg (fun h => hyy h.1)]

theorem coordToNat_inj {a b : Coord} (ha : coordInBounds a) (hb : coordInBounds b)
    (hy : a.y.toNat = b.y.toNat) (hx : a.x.toNat = b.x.toNat) : a = b := by
  obtain ⟨hax, hax', hay, hay'⟩ := ha
  obtain ⟨hbx, hbx', hby, hby'⟩ := hb
  have hxe : a.x = b.x := by omega
  have hye : a.y = b.y := by omega
  cases a
  cases b
  simp_all

/-! ## Placement loop characterization -/

theorem placeCell_ok_elim {g g' : Grid} {x y : Int} (h : placeCell g x y = .ok g') :
    0 ≤ x ∧ x < 10 ∧ 0 ≤ y ∧ y < 10 ∧ gridGet g y.toNat x.toNat = 0
      ∧ g' = gridSet g y.toNat x.toNat 1 := by
  unfold placeCell at h
  split_ifs at h with h1 h2 h3 h4
  all_goals simp at h
  push_neg at h1 h4
  exact ⟨by omega, by omega, by omega, by omega, h4, h.symm⟩

theorem placeCell_ok_intro (g : Grid) (x y : Int) (hx0 : 0 ≤ x) (hx : x < 10)
    (hy0 : 0 ≤ y) (hy : y < 10) (h0 : gridGet g y.toNat x.toNat = 0) :
    placeCell g x y = .ok (gridSet g y.toNat x.toNat 1) := by
  unfold placeCell
  rw [if_neg (by omega), if_neg (by omega), if_neg (by omega), if_neg (by simp [h0])]

theorem placeCells_ok_of : ∀ (cells : List Coord) (g : Grid),
    wfShape g → cells01 g →
    (∀ c ∈ cells, coordInBounds c) → cells.Nodup →
    (∀ c ∈ cells, gridGet g c.y.toNat c.x.toNat = 0) →
    ∃ g', placeCells cells g = .ok g'
      ∧ wfShape g' ∧ cells01 g'
      ∧ (∀ p : Coord, coordInBounds p →
          (gridGet g' p.y.toNat p.x.toNat = 1 ↔ gridGet g p.y.toNat p.x.toNat = 1 ∨ p ∈ cells))
      ∧ countOccupied g' = countOccupied g + cells.length := by
  intro cells
  induction cells with
  | nil =>
    intro g hwf h01 _ _ _
    exact ⟨g, rfl, hwf, h01, fun p _ => by simp, by simp⟩
  | cons c cs ih =>
    intro g hwf h01 hin hnd hfree
    obtain ⟨hcx0, hcx, hcy0, hcy⟩ := hin c (List.mem_cons_self c cs)
    have hyl : c.y.toNat < g.length := by rw [hwf.1]; omega
    have hxl : c.x.toNat < (g.getD c.y.toNat []).length := by
      rw [wfRow_of_wf g hwf _ (by omega)]
      omega
    have hpc := placeCell_ok_intro g c.x c.y hcx0 hcx hcy0 hcy
      (hfree c (List.mem_cons_self c cs))
    have hwf1 : wfShape (gridSet g c.y.toNat c.x.toNat 1) :=
      wfShape_gridSet g hwf _ _ 1 (by omega)
    have h011 : cells01 (gridSet g c.y.toNat c.x.toNat 1) := cells01_gridSet g h01 _ _
    have hget1 : ∀ y' x', gridGet (gridSet g c.y.toNat c.x.toNat 1) y' x'
        = if y' = c.y.toNat ∧ x' = c.x.toNat then 1 else gridGet g y' x' :=
      fun y' x' => gridGet_gridSet g _ _ 1 hyl hxl y' x'
    have hfree1 : ∀ d ∈ cs, gridGet (gridSet g c.y.toNat c.x.toNat 1) d.y.toNat d.x.toNat = 0 := by
      intro d hd
      have hdc : d ≠ c := by
        rintro rfl
        exact (List.nodup_cons.mp hnd).1 hd
      rw [hget1, if_neg (by
        rintro ⟨h1, h2⟩
        exact hdc (coordToNat_inj (hin d (List.mem_cons_of_mem c hd))
          (hin c (List.mem_cons_self c cs)) h1 h2))]
      exact hfree d (List.mem_cons_of_mem c hd)
    obtain ⟨g', hrun, hwf', h01', hiff, hcnt⟩ :=
      ih (gridSet g c.y.toNat c.x.toNat 1) hwf1 h011
        (fun d hd => hin d (List.mem_cons_of_mem c hd)) (List.nodup_cons.mp hnd).2 hfree1
    refine ⟨g', ?_, hwf', h01', ?_, ?_⟩
    · simp only [placeCells, hpc]
      exact hrun
    · intro p hp
      rw [hiff p hp, hget1]
      by_cases hpc' : p = c
      · subst hpc'
        rw [if_pos ⟨rfl, rfl⟩]
        simp [List.mem_cons]
      · rw [if_neg (by
          rintro ⟨h1, h2⟩
          exact hpc' (coordToNat_inj hp (hin c (List.mem_cons_self c cs)) h1 h2))]
        constructor
        · rintro (h | h)
          · exact Or.inl h
          · exact Or.inr (List.mem_cons_of_mem c h)
        · rintro (h | h)
          · exact Or.inl h
          · rcases List.mem_cons.mp h with rfl | hcs
            · exact absurd rfl hpc'
            · exact Or.inr hcs
    · rw [hcnt, countOccupied_gridSet g _ _ hyl hxl (hfree c (List.mem_cons_self c cs))]
      simp only [List.length_cons]
      omega

theorem shipCells_length (s : Ship) : (shipCells s).length = s.size := by
  unfold shipCells
  rw [List.length_map, List.length_range]

theorem shipCells_nodup (s : Ship) : (shipCells s).Nodup := by
  unfold shipCells
  refine (List.nodup_range s.size).map ?_
  intro i j hij
  by_cases hh : s.horizontal <;> simp [hh, Coord.mk.injEq] at hij <;> omega

theorem placeShips_ok_of : ∀ (ships : List Ship) (g : Grid),
    wfShape g → cells01 g → (∀ s ∈ ships, shipInBounds s) →
    shipsDisjoint ships →
    (∀ s ∈ ships, ∀ c ∈ shipCells s, gridGet g c.y.toNat c.x.toNat = 0) →
    ∃ g', placeShips ships g = .ok g' ∧ wfShape g' ∧ cells01 g'
      ∧ (∀ p : Coord, coordInBounds p →
          (gridGet g' p.y.toNat p.x.toNat = 1
            ↔ gridGet g p.y.toNat p.x.toNat = 1 ∨ coveredBy ships p))
      ∧ countOccupied g' = countOccupied g + (ships.map Ship.size).sum := by
  intro ships
  induction ships with
  | nil =>
    intro g hwf h01 _ _ _
    exact ⟨g, rfl, hwf, h01, fun p _ => by simp [coveredBy], by simp⟩
  | cons s ss ih =>
    intro g hwf h01 hin hdis hfree
    obtain ⟨g1, hrun1, hwf1, h011, hiff1, hcnt1⟩ :=
      placeCells_ok_of (shipCells s) g hwf h01 (hin s (List.mem_cons_self s ss))
        (shipCells_nodup s) (hfree s (List.mem_cons_self s ss))
    have hdis' := List.pairwise_cons.mp hdis
    have hfree1 : ∀ s' ∈ ss, ∀ c ∈ shipCells s', gridGet g1 c.y.toNat c.x.toNat = 0 := by
      intro s' hs' c hc
      have hcb : coordInBounds c := hin s' (List.mem_cons_of_mem s hs') c hc
      have hne1 : ¬ gridGet g1 c.y.toNat c.x.toNat = 1 := by
        rw [hiff1 c hcb]
        rintro (h | h)
        · have := hfree s' (List.mem_cons_of_mem s hs') c hc
          omega
        · exact hdis'.1 s' hs' c h hc
      rcases gridGet_mem01 g1 h011 c.y.toNat c.x.toNat with h0 | h1'
      · exact h0
      · exact absurd h1' hne1
    obtain ⟨g', hrun, hwf', h01', hiff, hcnt⟩ :=
      ih g1 hwf1 h011 (fun t ht => hin t (List.mem_cons_of_mem s ht)) hdis'.2 hfree1
    refine ⟨g', ?_, hwf', h01', ?_, ?_⟩
    · simp only [placeShips, placeShip, hrun1]
      exact hrun
    · intro p hp
      rw [hiff p hp, hiff1 p hp]
      constructor
      · rintro ((h | h) | h)
        · exact Or.inl h
        · exact Or.inr ⟨s, List.mem_cons_self s ss, h⟩
        · obtain ⟨t, ht, hpt⟩ := h
          exact Or.inr ⟨t, List.mem_cons_of_mem s ht, hpt⟩
      · rintro (h | ⟨t, ht, hpt⟩)
        · exact Or.inl (Or.inl h)
        · rcases List.mem_cons.mp ht with rfl | hss
          · exact Or.inl (Or.inr hpt)
          · exact Or.inr ⟨t, hss, hpt⟩
    · rw [hcnt, hcnt1, shipCells_length]
      simp only [List.map_cons, List.sum_cons]
      omega

theorem createBoard_sum (ships : List Ship)
    (hin : ∀ s ∈ ships, shipInBounds s) (hdis : shipsDisjoint ships) :
    ∃ g, createBoard ships = .ok ⟨ships, g⟩ ∧ wfShape g ∧ cells01 g
      ∧ (∀ p : Coord, coordInBounds p →
          (gridGet g p.y.toNat p.x.toNat = 1 ↔ coveredBy ships p))
      ∧ countOccupied g = (ships.map Ship.size).sum := by
  obtain ⟨g, hrun, hwf, h01, hiff, hcnt⟩ :=
    placeShips_ok_of ships emptyGrid wfShape_emptyGrid cells01_emptyGrid hin hdis
      (fun s _ c _ => gridGet_emptyGrid _ _)
  refine ⟨g, by simp only [createBoard, hrun], hwf, h01, ?_, ?_⟩
  · intro p hp
    rw [hiff p hp, gridGet_emptyGrid]
    simp
  · rw [hcnt, show countOccupied emptyGrid = 0 from rfl]
    omega

theorem placeCells_ok_inv : ∀ (cells : List Coord) (g g' : Grid),
    placeCells cells g = .ok g' → wfShape g → cells01 g →
    wfShape g' ∧ cells01 g'
      ∧ (∀ p : Coord, coordInBounds p →
          (gridGet g' p.y.toNat p.x.toNat = 1
            ↔ gridGet g p.y.toNat p.x.toNat = 1 ∨ p ∈ cells)) := by
  intro cells
  induction cells with
  | nil =>
    intro g g' h hwf h01
    obtain rfl : g = g' := by simpa [placeCells] using h
    exact ⟨hwf, h01, fun p _ => by simp⟩
  | cons c cs ih =>
    intro g g' h hwf h01
    cases hpc : placeCell g c.x c.y with
    | error e =>
      simp only [placeCells, hpc] at h
      exact nomatch h
    | ok g1 =>
      simp only [placeCells, hpc] at h
      obtain ⟨hx0, hx, hy0, hy, h0, hg1⟩ := placeCell_ok_elim hpc
      subst hg1
      have hcb : coordInBounds c := ⟨hx0, hx, hy0, hy⟩
      have hyl : c.y.toNat < g.length := by rw [hwf.1]; omega
      have hxl : c.x.toNat < (g.getD c.y.toNat []).length := by
        rw [wfRow_of_wf g hwf _ (by omega)]
        omega
      have hwf1 : wfShape (gridSet g c.y.toNat c.x.toNat 1) :=
        wfShape_gridSet g hwf _ _ 1 (by omega)
      have h011 : cells01 (gridSet g c.y.toNat c.x.toNat 1) := cells01_gridSet g h01 _ _
      obtain ⟨hwf', h01', hiff⟩ := ih _ g' h hwf1 h011
      refine ⟨hwf', h01', ?_⟩
      intro p hp
      rw [hiff p hp, gridGet_gridSet g _ _ 1 hyl hxl]
      by_cases hpc' : p = c
      · subst hpc'
        rw [if_pos ⟨rfl, rfl⟩]
        simp [List.mem_cons]
      · rw [if_neg (by
          rintro ⟨h1, h2⟩
          exact hpc' (coordToNat_inj hp hcb h1 h2))]
        constructor
        · rintro (h | h)
          · exact Or.inl h
          · exact Or.inr (List.mem_cons_of_mem c h)
        · rintro (h | h)
          · exact Or.inl h
          · rcases List.mem_cons.mp h with rfl | hcs
            · exact absurd rfl hpc'
            · exact Or.inr hcs

theorem placeShips_ok_inv : ∀ (ships : List Ship) (g g' : Grid),
    placeShips ships g = .ok g' → wfShape g → cells01 g →
    wfShape g' ∧ cells01 g'
      ∧ (∀ p : Coord, coordInBounds p →
          (gridGet g' p.y.toNat p.x.toNat = 1
            ↔ gridGet g p.y.toNat p.x.toNat = 1 ∨ coveredBy ships p)) := by
  intro ships
  induction ships with
  | nil =>
    intro g g' h hwf h01
    obtain rfl : g = g' := by simpa [placeShips] using h
    exact ⟨hwf, h01, fun p _ => by simp [coveredBy]⟩
  | cons s ss ih =>
    intro g g' h hwf h01
    cases hrun1 : placeShip g s with
    | error e =>
      simp only [placeShips, hrun1] at h
      exact nomatch h
    | ok g1 =>
      simp only [placeShips, hrun1] at h
      obtain ⟨hwf1, h011, hiff1⟩ := placeCells_ok_inv (shipCells s) g g1 hrun1 hwf h01
      obtain ⟨hwf', h01', hiff⟩ := ih g1 g' h hwf1 h011
      refine ⟨hwf', h01', ?_⟩
      intro p hp
      rw [hiff p hp, hiff1 p hp]
      constructor
      · rintro ((h | h) | h)
        · exact Or.inl h
        · exact Or.inr ⟨s, List.mem_cons_self s ss, h⟩
        · obtain ⟨t, ht, hpt⟩ := h
          exact Or.inr ⟨t, List.mem_cons_of_mem s ht, hpt⟩
      · rintro (h | ⟨t, ht, hpt⟩)
        · exact Or.inl (Or.inl h)
        · rcases List.mem_cons.mp ht with rfl | hss
          · exact Or.inl (Or.inr hpt)
          · exact Or.inr ⟨t, hss, hpt⟩

/-! ## C3: the board commitment -/

theorem natUtf8_01 {c : Nat} (h : c = 0 ∨ c = 1) : natUtf8 c = [48 + c] := by
  rcases h with rfl | rfl <;> rfl

theorem serialize_digits (l : List Nat) (h : ∀ c ∈ l, c = 0 ∨ c = 1) :
    (l.map natUtf8).flatten = l.map (fun c => 48 + c) := by
  induction l with
  | nil => rfl
  | cons c t ih =>
    rw [List.map_cons, List.flatten_cons, ih (fun d hd => h d (List.mem_cons_of_mem _ hd)),
      natUtf8_01 (h c (List.mem_cons_self c t)), List.map_cons]
    rfl

theorem sum_all_eq : ∀ (l : List Nat) (c : Nat), (∀ x ∈ l, x = c) → l.sum = l.length * c := by
  intro l
  induction l with
  | nil => intro c _; simp
  | cons a t ih =>
    intro c h
    rw [List.sum_cons, h a (List.mem_cons_self a t),
      ih c (fun x hx => h x (List.mem_cons_of_mem a hx))]
    simp [Nat.succ_mul]
    omega

theorem flatten_inj : ∀ (g g' : Grid), g.length = g'.length →
    (∀ r ∈ g, r.length = 10) → (∀ r ∈ g', r.length = 10) →
    g.flatten = g'.flatten → g = g' := by
  intro g
  induction g with
  | nil =>
    intro g' hl _ _ _
    cases g' with
    | nil => rfl
    | cons r' t' => simp at hl
  | cons r t ih =>
    intro g' hl hg hg' hf
    cases g' with
    | nil => simp at hl
    | cons r' t' =>
      rw [List.flatten_cons, List.flatten_cons] at hf
      have hr : r.length = r'.length := by
        rw [hg r (List.mem_cons_self r t), hg' r' (List.mem_cons_self r' t')]
      obtain ⟨h1, h2⟩ := List.append_inj hf hr
      rw [h1, ih t' (by simpa using hl) (fun r hr => hg r (List.mem_cons_of_mem _ hr))
        (fun r hr => hg' r (List.mem_cons_of_mem _ hr)) h2]

theorem serializeBoardBytes_eq (b : Board) (h01 : cells01 b.grid) :
    serializeBoardBytes b = b.grid.flatten.map (fun c => 48 + c) := by
  unfold serializeBoardBytes
  refine serialize_digits _ (fun c hc => ?_)
  obtain ⟨r, hr, hcr⟩ := List.mem_flatten.mp hc
  exact h01 r hr c hcr

theorem flatten_length_100 (g : Grid) (hwf : wfShape g) : g.flatten.length = 100 := by
  rw [List.length_flatten, sum_all_eq (g.map List.length) 10 (by
    intro x hx
    obtain ⟨r, hr, hval⟩ := List.mem_map.mp hx
    rw [← hval]
    exact hwf.2 r hr)]
  rw [List.length_map, hwf.1]

theorem exceptMap_ok {α β γ : Type} (f : α → β) (a : α) :
    (Except.ok a : Except γ α).map f = .ok (f a) := rfl

/-- C3 counterexample: the salts a and a-NUL are distinct, but
formatBytes32String zero-pads to 32 bytes, so the byte sequences handed to
keccak256 coincide and the digests are identical for every hash function —
changing the salt does not always change the digest. -/
theorem salt_padding_collision :
    salt97 ≠ salt970
    ∧ commitmentBytes emptyBoard salt97 = commitmentBytes emptyBoard salt970
    ∧ generateBoardCommitment encodeListNat emptyBoard salt97
        = generateBoardCommitment encodeListNat emptyBoard salt970 := by
  refine ⟨by decide, by decide, ?_⟩
  show (commitmentBytes emptyBoard salt97).map encodeListNat
      = (commitmentBytes emptyBoard salt970).map encodeListNat
  rw [show commitmentBytes emptyBoard salt97 = commitmentBytes emptyBoard salt970 from by decide]

/-- C3 (amended): for an injective (ideal) hash and salts of at most 31
bytes, generateBoardCommitment is deterministic, hashes exactly the
row-major flattened 0/1 cell string followed by the zero-padded 32-byte
salt, and changing any cell of the 10x10 0/1 grid changes the digest;
changing the salt changes the digest provided the two salts' zero-padded
32-byte encodings differ (salts differing only by trailing NUL bytes
collide). -/
theorem commitment_amended (H : List Nat → Nat) (hH : Function.Injective H)
    (b b' : Board) (hwf : wfShape b.grid) (h01 : cells01 b.grid)
    (hwf' : wfShape b'.grid) (h01' : cells01 b'.grid)
    (salt salt' : List Nat) (hs : salt.length ≤ 31) (hs' : salt'.length ≤ 31) :
    generateBoardCommitment H b salt = generateBoardCommitment H b salt
    ∧ commitmentBytes b salt
        = .ok (serializeBoardBytes b ++ (salt ++ List.replicate (32 - salt.length) 0))
    ∧ (b.grid ≠ b'.grid →
        generateBoardCommitment H b salt ≠ generateBoardCommitment H b' salt)
    ∧ (salt ++ List.replicate (32 - salt.length) 0
          ≠ salt' ++ List.replicate (32 - salt'.length) 0 →
        generateBoardCommitment H b salt ≠ generateBoardCommitment H b salt') := by
  have hcb : ∀ (bb : Board) (ss : List Nat), ss.length ≤ 31 →
      commitmentBytes bb ss
        = .ok (serializeBoardBytes bb ++ (ss ++ List.replicate (32 - ss.length) 0)) := by
    intro bb ss hss
    unfold commitmentBytes formatBytes32
    rw [if_neg (by omega)]
  refine ⟨rfl, hcb b salt hs, ?_, ?_⟩
  · intro hne heq
    unfold generateBoardCommitment at heq
    rw [hcb b salt hs, hcb b' salt hs, exceptMap_ok, exceptMap_ok, Except.ok.injEq] at heq
    have hbytes := hH heq
    obtain ⟨hser, _⟩ := List.append_inj hbytes (by
      rw [serializeBoardBytes_eq b h01, serializeBoardBytes_eq b' h01',
        List.length_map, List.length_map, flatten_length_100 _ hwf, flatten_length_100 _ hwf'])
    rw [serializeBoardBytes_eq b h01, serializeBoardBytes_eq b' h01'] at hser
    have hflat : b.grid.flatten = b'.grid.flatten :=
      List.map_injective_iff.mpr (fun u v huv => by omega) hser
    exact hne (flatten_inj b.grid b'.grid (by rw [hwf.1, hwf'.1]) hwf.2 hwf'.2 hflat)
  · intro hne heq
    unfold generateBoardCommitment at heq
    rw [hcb b salt hs, hcb b salt' hs', exceptMap_ok, exceptMap_ok, Except.ok.injEq] at heq
    exact hne (List.append_cancel_left (hH heq))

/-- C3 witness: the amended theorem applied with the injective encoding hash
to the standard board against the empty board, and to two salts with
distinct padded forms. -/
theorem commitment_amended_witness :
    Function.Injective encodeListNat
    ∧ stdBoard.grid ≠ emptyBoard.grid
    ∧ generateBoardCommitment encodeListNat stdBoard salt97
        ≠ generateBoardCommitment encodeListNat emptyBoard salt97
    ∧ generateBoardCommitment encodeListNat stdBoard salt97
        ≠ generateBoardCommitment encodeListNat stdBoard [98] := by
  have hinj : Function.Injective encodeListNat := Encodable.encode_injective
  refine ⟨hinj, by decide, ?_, ?_⟩
  · exact (commitment_amended encodeListNat hinj stdBoard emptyBoard (by decide) (by decide)
      (by decide) (by decide) salt97 salt97 (by decide) (by decide)).2.2.1 (by decide)
  · exact (commitment_amended encodeListNat hinj stdBoard stdBoard (by decide) (by decide)
      (by decide) (by decide) salt97 [98] (by decide) (by decide)).2.2.2 (by decide)

/-! ## C4: the shot-proof claim gate -/

/-- C4 counterexample: with a 32-byte salt (exactly what `generateSalt`
produces: 32 hex characters) and an agreeing claim, generateShotProof does
not build the circuit input — the commitment computation fails with the
bytes32 length error first, so "when they agree it builds the circuit
input" does not hold for every salt. -/
theorem long_salt_no_input :
    generateShotProof List.length emptyBoard 0 0 false saltLong = .error .bytes32TooLong
    ∧ checkShotResult emptyBoard 0 0 = .ok false
    ∧ saltLong.length = 32 := by decide

/-- C4 (amended): at an in-bounds coordinate, generateShotProof fails with
the claim-mismatch error exactly when the claimed flag differs from the
board's ground truth (for every salt), and when the flags agree and the
salt fits in 31 bytes it emits the circuit input holding the flattened
cells, the shot coordinate, the 0/1 claim flag, the salt, and a commitment
recomputed from the board and salt. -/
theorem shotProof_claim_gate (H : List Nat → Nat) (b : Board) (x y : Int)
    (claimed : Bool) (salt : List Nat) (hin : coordInBounds ⟨x, y⟩) :
    (generateShotProof H b x y claimed salt
        = .error (.claimMismatch claimed (gridGet b.grid y.toNat x.toNat == 1))
      ↔ claimed ≠ (gridGet b.grid y.toNat x.toNat == 1))
    ∧ (claimed = (gridGet b.grid y.toNat x.toNat == 1) → salt.length ≤ 31 →
        ∃ d, generateBoardCommitment H b salt = .ok d
          ∧ generateShotProof H b x y claimed salt
              = .ok ⟨boardCells b, x, y, if claimed then 1 else 0, salt, d⟩) := by
  obtain ⟨hx0, hx, hy0, hy⟩ := hin
  dsimp only at hx0 hx hy0 hy
  have hcsr : checkShotResult b x y = .ok (gridGet b.grid y.toNat x.toNat == 1) := by
    unfold checkShotResult
    rw [if_neg (by omega)]
  have key : generateShotProof H b x y claimed salt
      = if (gridGet b.grid y.toNat x.toNat == 1) != claimed
          then .error (.claimMismatch claimed (gridGet b.grid y.toNat x.toNat == 1))
        else match generateBoardCommitment H b salt with
          | .error e => .error e
          | .ok commitment =>
            .ok ⟨boardCells b, x, y, if claimed then 1 else 0, salt, commitment⟩ := by
    simp only [generateShotProof, hcsr]
  have hcommOk : salt.length ≤ 31 → generateBoardCommitment H b salt
      = .ok (H (serializeBoardBytes b ++ (salt ++ List.replicate (32 - salt.length) 0))) := by
    intro hsl
    unfold generateBoardCommitment commitmentBytes formatBytes32
    rw [if_neg (by omega)]
    rfl
  have hcommErr : 31 < salt.length →
      generateBoardCommitment H b salt = .error .bytes32TooLong := by
    intro hsl
    unfold generateBoardCommitment commitmentBytes formatBytes32
    rw [if_pos hsl]
    rfl
  constructor
  · by_cases hne : claimed = (gridGet b.grid y.toNat x.toNat == 1)
    · constructor
      · intro h
        exfalso
        rw [key, hne, bne_self_eq_false, if_neg (by simp)] at h
        by_cases hsl : 31 < salt.length
        · rw [hcommErr hsl] at h
          simp at h
        · rw [hcommOk (by omega)] at h
          simp at h
      · intro h
        exact absurd hne h
    · constructor
      · intro _
        exact hne
      · intro _
        rw [key, if_pos (bne_iff_ne.mpr (Ne.symm hne))]
  · intro heq hsl
    refine ⟨H (serializeBoardBytes b ++ (salt ++ List.replicate (32 - salt.length) 0)),
      hcommOk hsl, ?_⟩
    rw [key, heq, bne_self_eq_false, if_neg (by simp), hcommOk hsl]

/-- C4 witness: the amended theorem at the standard board, the in-bounds
ship cell (0,0) with the agreeing claim true and the 1-byte salt. -/
theorem shotProof_claim_gate_witness :
    coordInBounds (⟨0, 0⟩ : Coord)
    ∧ (generateShotProof List.length stdBoard 0 0 true salt97
          = .error (.claimMismatch true (gridGet stdBoard.grid 0 0 == 1))
        ↔ true ≠ (gridGet stdBoard.grid 0 0 == 1))
    ∧ ∃ d, generateBoardCommitment List.length stdBoard salt97 = .ok d
        ∧ generateShotProof List.length stdBoard 0 0 true salt97
            = .ok ⟨boardCells stdBoard, 0, 0, if true then 1 else 0, salt97, d⟩ := by
  refine ⟨by decide, ?_, ?_⟩
  · exact (shotProof_claim_gate List.length stdBoard 0 0 true salt97 (by decide)).1
  · exact (shotProof_claim_gate List.length stdBoard 0 0 true salt97 (by decide)).2
      (by decide) (by decide)

/-! ## C5: checkShotResult agrees with the ship footprints -/

/-- C5: for every board produced by ship placement (the data-model invariant
that the grid is exactly the union of the ship footprints), checkShotResult
at an in-bounds coordinate returns true exactly when some ship footprint
covers it, and at an out-of-bounds coordinate fails with the out-of-bounds
error.  The embedded function is pure, which renders the no-side-effects
part of the claim. -/
theorem checkShotResult_footprint (ships : List Ship) (b : Board) (x y : Int)
    (hcb : createBoard ships = .ok b) :
    (coordInBounds ⟨x, y⟩ →
      (checkShotResult b x y = .ok true ↔ ∃ s ∈ ships, (⟨x, y⟩ : Coord) ∈ shipCells s))
    ∧ (¬coordInBounds ⟨x, y⟩ → checkShotResult b x y = .error (.outOfBounds x y)) := by
  cases hps : placeShips ships emptyGrid with
  | error e =>
    simp only [createBoard, hps] at hcb
    exact nomatch hcb
  | ok g =>
    simp only [createBoard, hps, Except.ok.injEq] at hcb
    subst hcb
    obtain ⟨hwf, h01, hiff⟩ :=
      placeShips_ok_inv ships emptyGrid g hps wfShape_emptyGrid cells01_emptyGrid
    constructor
    · rintro ⟨hx0, hx, hy0, hy⟩
      dsimp only at hx0 hx hy0 hy
      have hiffp := hiff ⟨x, y⟩ ⟨hx0, hx, hy0, hy⟩
      dsimp only at hiffp
      rw [gridGet_emptyGrid] at hiffp
      have hcheck : checkShotResult ⟨ships, g⟩ x y
          = .ok (gridGet g y.toNat x.toNat == 1) := by
        unfold checkShotResult
        rw [if_neg (by omega)]
      rw [hcheck]
      simp only [Except.ok.injEq, beq_iff_eq]
      rw [hiffp]
      simp [coveredBy]
    · intro hp
      dsimp only [coordInBounds] at hp
      unfold checkShotResult
      rw [if_pos (by omega)]

/-- C5 witness: the theorem applied to the concrete standard fleet, at the
in-bounds ship cell (0,0) and at the out-of-bounds coordinate (-1, 0). -/
theorem checkShotResult_footprint_witness :
    createBoard stdFleet = .ok stdBoard
    ∧ (checkShotResult stdBoard 0 0 = .ok true
        ↔ ∃ s ∈ stdFleet, (⟨0, 0⟩ : Coord) ∈ shipCells s)
    ∧ checkShotResult stdBoard (-1) 0 = .error (.outOfBounds (-1) 0) := by
  refine ⟨by decide, ?_, ?_⟩
  · exact (checkShotResult_footprint stdFleet stdBoard 0 0 (by decide)).1 (by decide)
  · exact (checkShotResult_footprint stdFleet stdBoard (-1) 0 (by decide)).2 (by decide)

/-! ## C7: createBoard + validateBoard on valid fleets -/

/-- C7 counterexample: the standard {5,4,3,3,2} fleet is a valid ship set,
and the grid createBoard builds for it holds 17 occupied cells, not the 18
asserted by the claim. -/
theorem stdFleet_occupies_17 :
    (createBoard stdFleet).map (fun b => countOccupied b.grid) = .ok 17
    ∧ (createBoard stdFleet).map (fun b => countOccupied b.grid) ≠ .ok 18
    ∧ (stdFleet.map Ship.size).Perm SHIP_SIZES
    ∧ (∀ s ∈ stdFleet, shipInBounds s) ∧ shipsDisjoint stdFleet := by decide

/-- C7 (amended): for every valid ship set (size multiset {5,4,3,3,2}, all
ships in-bounds, no shared cells) createBoard succeeds, validateBoard
accepts the result, and the occupied-cell count equals the sum of the ship
sizes — which is 17 for the standard fleet, not 18. -/
theorem createBoard_validateBoard (ships : List Ship)
    (hsz : (ships.map Ship.size).Perm SHIP_SIZES)
    (hin : ∀ s ∈ ships, shipInBounds s) (hdis : shipsDisjoint ships) :
    ∃ g, createBoard ships = .ok ⟨ships, g⟩
      ∧ validateBoard ⟨ships, g⟩ = .ok true
      ∧ countOccupied g = (ships.map Ship.size).sum
      ∧ countOccupied g = 17 := by
  obtain ⟨g, hcb, hwf, h01, hiff, hcnt⟩ := createBoard_sum ships hin hdis
  have hsum : (ships.map Ship.size).sum = 17 := by
    rw [hsz.sum_eq]
    rfl
  have hlen : ships.length = 5 := by simpa using hsz.length_eq
  have hfsm : firstSizeMismatch (ships.map Ship.size) = none := by
    unfold firstSizeMismatch
    apply List.find?_eq_none.mpr
    intro sz _
    simp [hsz.count_eq sz]
  refine ⟨g, hcb, ?_, hcnt, by omega⟩
  unfold validateBoard
  dsimp only
  rw [if_neg (by simp [hlen, SHIP_SIZES]), hfsm, hcb]
  simp

/-- C7 witness: the amended theorem applied to the standard fleet. -/
theorem createBoard_validateBoard_witness :
    (stdFleet.map Ship.size).Perm SHIP_SIZES
    ∧ ∃ g, createBoard stdFleet = .ok ⟨stdFleet, g⟩
        ∧ validateBoard ⟨stdFleet, g⟩ = .ok true
        ∧ countOccupied g = (stdFleet.map Ship.size).sum
        ∧ countOccupied g = 17 :=
  ⟨by decide, createBoard_validateBoard stdFleet (by decide) (by decide) (by decide)⟩

/-! ## C9: the placement fleet cannot validate -/

/-- C9: the ship-placement component offers the sizes {5,4,3,2,1}
(SUBMARINE = 2, DESTROYER = 1), which is not the SHIP_SIZES multiset
{5,4,3,3,2}; every board carrying exactly those five sizes is rejected by
validateBoard with the size-3 count error, and a valid placement of that
fleet occupies 15 cells, which differs from 18. -/
theorem placement_fleet_mismatch :
    shipsToPlace.map ShipType.value = [5, 4, 3, 2, 1]
    ∧ ¬(shipsToPlace.map ShipType.value).Perm SHIP_SIZES
    ∧ (∀ b : Board, (b.ships.map Ship.size).Perm (shipsToPlace.map ShipType.value) →
        validateBoard b = .error (.invalidSizeCount 3))
    ∧ (∀ ships : List Ship,
        (ships.map Ship.size).Perm (shipsToPlace.map ShipType.value) →
        (∀ s ∈ ships, shipInBounds s) → shipsDisjoint ships →
        ∃ g, createBoard ships = .ok ⟨ships, g⟩ ∧ countOccupied g = 15 ∧ (15 : Nat) ≠ 18) := by
  refine ⟨rfl, by decide, ?_, ?_⟩
  · intro b hperm
    have hlen : b.ships.length = 5 := by simpa using hperm.length_eq
    have h5 := hperm.count_eq 5
    have h4 := hperm.count_eq 4
    have h3 := hperm.count_eq 3
    have hfsm : firstSizeMismatch (b.ships.map Ship.size) = some 3 := by
      unfold firstSizeMismatch expectedSizeKeys
      rw [List.find?_cons_of_neg _ (by simp [h5]; decide), List.find?_cons_of_neg _ (by simp [h4]; decide),
        List.find?_cons_of_pos _ (by simp [h3]; decide)]
    unfold validateBoard
    rw [if_neg (by simp [hlen, SHIP_SIZES]), hfsm]
  · intro ships hperm hin hdis
    obtain ⟨g, hcb, _, _, _, hcnt⟩ := createBoard_sum ships hin hdis
    refine ⟨g, hcb, ?_, by decide⟩
    rw [hcnt, hperm.sum_eq]
    rfl

/-- C9 witness: the theorem applied to the concrete placement-fleet board. -/
theorem placement_fleet_mismatch_witness :
    ((placementBoard.ships.map Ship.size).Perm (shipsToPlace.map ShipType.value))
    ∧ validateBoard placementBoard = .error (.invalidSizeCount 3)
    ∧ ∃ g, createBoard placementFleet = .ok ⟨placementFleet, g⟩
        ∧ countOccupied g = 15 ∧ (15 : Nat) ≠ 18 := by
  refine ⟨by decide, ?_, ?_⟩
  · exact placement_fleet_mismatch.2.2.1 placementBoard (by decide)
  · exact placement_fleet_mismatch.2.2.2 placementFleet (by decide) (by decide) (by decide)

/-! ## C2: the shot-history bitmap -/

theorem foldlSet_length (hits : List Coord) : ∀ L : List Nat,
    (hits.foldl (fun sh c => sh.set (bitIndex c) 1) L).length = L.length := by
  induction hits with
  | nil => intro L; rfl
  | cons c t ih =>
    intro L
    rw [List.foldl_cons, ih (L.set (bitIndex c) 1), List.length_set]

theorem bitIndex_lt (c : Coord) (h : coordInBounds c) : bitIndex c < 100 := by
  obtain ⟨hx0, hx, hy0, hy⟩ := h
  simp only [bitIndex]
  omega

theorem foldlSet_getD (hits : List Coord) : ∀ (L : List Nat), L.length = 100 →
    (∀ c ∈ hits, coordInBounds c) → ∀ i, i < 100 →
    (hits.foldl (fun sh c => sh.set (bitIndex c) 1) L).getD i 0
      = if ∃ c ∈ hits, bitIndex c = i then 1 else L.getD i 0 := by
  induction hits with
  | nil => intro L _ _ i _; simp
  | cons c t ih =>
    intro L hL hin i hi
    have hL' : (L.set (bitIndex c) 1).length = 100 := by simp [hL]
    rw [List.foldl_cons,
      ih (L.set (bitIndex c) 1) hL' (fun d hd => hin d (List.mem_cons_of_mem _ hd)) i hi]
    by_cases hc : bitIndex c = i
    · have hset : (L.set (bitIndex c) 1).getD i 0 = 1 := by
        rw [← hc]
        exact listGetD_set_self L _ 1 0
          (by rw [hL]; exact bitIndex_lt c (hin c (List.mem_cons_self c t)))
      by_cases ht : ∃ d ∈ t, bitIndex d = i
      · rw [if_pos ht, if_pos ⟨c, List.mem_cons_self c t, hc⟩]
      · rw [if_neg ht, if_pos ⟨c, List.mem_cons_self c t, hc⟩]
        exact hset
    · have hset : (L.set (bitIndex c) 1).getD i 0 = L.getD i 0 := listGetD_set_ne L _ i 1 0 hc
      by_cases ht : ∃ d ∈ t, bitIndex d = i
      · obtain ⟨d, hd, hbd⟩ := ht
        rw [if_pos ⟨d, hd, hbd⟩, if_pos ⟨d, List.mem_cons_of_mem c hd, hbd⟩]
      · rw [if_neg ht, hset, if_neg (by
          rintro ⟨d, hd, hbd⟩
          rcases List.mem_cons.mp hd with rfl | hdt
          · exact hc hbd
          · exact ht ⟨d, hdt, hbd⟩)]

theorem shotHistory_length (m : ShotMap) : (shotHistory m).length = 100 := by
  simpa using foldlSet_length m.hits (List.replicate 100 0)

theorem shotHistory_getD (m : ShotMap) (hin : ∀ c ∈ m.hits, coordInBounds c)
    (i : Nat) (hi : i < 100) :
    (shotHistory m).getD i 0 = if ∃ c ∈ m.hits, bitIndex c = i then 1 else 0 := by
  rw [shotHistory, foldlSet_getD m.hits _ (by simp) hin i hi, listGetD_replicate]

/-- C2 counterexample: on a shipless board (so the all-sunk gate passes with
zero hits), a ShotMap whose only entry is a recorded miss at (0,0) yields a
game-end shot-history bitmap whose bit for (0,0) is 0 — a fired-upon cell
is not marked, refuting the claim that the bitmap has a 1 at exactly the
cells that were fired upon. -/
theorem gameEnd_bitmap_misses_unmarked :
    (generateGameEndProof List.length emptyBoard ⟨[], [⟨0, 0⟩]⟩ salt97).map
        (fun i => i.shot_history.getD (bitIndex ⟨0, 0⟩) 0) = .ok 0
    ∧ (⟨0, 0⟩ : Coord) ∈ (⟨[], [⟨0, 0⟩]⟩ : ShotMap).misses := by decide

/-- C2 (amended): the shot-history bitmap built inside generateGameEndProof
has a 1 at exactly the cells recorded in the hit set (entries of the miss
set are not marked), in the row-major y*10+x cell order, and the bitmap is
the same for any two ShotMaps whose hit sets are permutations of one
another. -/
theorem shotHistory_bitmap (m m' : ShotMap)
    (hm : ∀ c ∈ m.hits, coordInBounds c) (hm' : ∀ c ∈ m'.hits, coordInBounds c) :
    (∀ i, i < 100 → ((shotHistory m).getD i 0 = 1 ↔ ∃ c ∈ m.hits, bitIndex c = i))
    ∧ (m.hits.Perm m'.hits → shotHistory m = shotHistory m') := by
  constructor
  · intro i hi
    rw [shotHistory_getD m hm i hi]
    by_cases h : ∃ c ∈ m.hits, bitIndex c = i <;> simp [h]
  · intro hperm
    have l1 : (shotHistory m).length = 100 := shotHistory_length m
    have l2 : (shotHistory m').length = 100 := shotHistory_length m'
    apply List.ext_getElem (by rw [l1, l2])
    intro i h1 h2
    have hi : i < 100 := by omega
    have e1 : (shotHistory m)[i] = (shotHistory m).getD i 0 := by
      rw [List.getD_eq_getElem?_getD, List.getElem?_eq_getElem h1, Option.getD_some]
    have e2 : (shotHistory m')[i] = (shotHistory m').getD i 0 := by
      rw [List.getD_eq_getElem?_getD, List.getElem?_eq_getElem h2, Option.getD_some]
    rw [e1, e2, shotHistory_getD m hm i hi, shotHistory_getD m' hm' i hi]
    have hmem : ∀ c, c ∈ m.hits ↔ c ∈ m'.hits := fun c => hperm.mem_iff
    by_cases h : ∃ c ∈ m.hits, bitIndex c = i
    · obtain ⟨c, hc, hb⟩ := h
      rw [if_pos ⟨c, hc, hb⟩, if_pos ⟨c, (hmem c).1 hc, hb⟩]
    · rw [if_neg h, if_neg (fun ⟨c, hc, hb⟩ => h ⟨c, (hmem c).2 hc, hb⟩)]

/-- C2 witness: the amended theorem applied to the 17-hit shot map and its
reversal. -/
theorem shotHistory_bitmap_witness :
    (∀ c ∈ shotMap17.hits, coordInBounds c)
    ∧ ((shotHistory shotMap17).getD 0 0 = 1 ↔ ∃ c ∈ shotMap17.hits, bitIndex c = 0)
    ∧ shotHistory shotMap17 = shotHistory shotMap17rev := by
  refine ⟨by decide, ?_, ?_⟩
  · exact (shotHistory_bitmap shotMap17 shotMap17rev (by decide) (by decide)).1 0 (by norm_num)
  · exact (shotHistory_bitmap shotMap17 shotMap17rev (by decide) (by decide)).2 (by decide)

/-! ## C1: addShot idempotence and the two-sided invariant -/

/-- C1 counterexample: applying addShot twice with the same (0, 0, hit)
does not produce the same ShotMap as applying it once — the claimed
idempotence is false on the code. -/
theorem addShot_twice_ne :
    addShot (addShot createEmptyShotMap 0 0 true) 0 0 true
      ≠ addShot createEmptyShotMap 0 0 true := by decide

/-- C1 (amended): addShot appends the coordinate to the corresponding list
without any duplicate check, so re-applying the same shot always yields a
strictly different map (one more entry), and a map reachable from the empty
map by addShot can hold the same coordinate in both the hit and miss sets. -/
theorem addShot_append_behavior :
    (∀ (m : ShotMap) (x y : Int) (b : Bool),
      (addShot m x y b).hits.length + (addShot m x y b).misses.length
          = m.hits.length + m.misses.length + 1
        ∧ addShot (addShot m x y b) x y b ≠ addShot m x y b)
    ∧ (ReachableShotMap bothSides
        ∧ (⟨0, 0⟩ : Coord) ∈ bothSides.hits ∧ (⟨0, 0⟩ : Coord) ∈ bothSides.misses) := by
  constructor
  · intro m x y b
    constructor
    · cases b <;> simp [addShot] <;> omega
    · intro h
      have hlen := congrArg (fun mm : ShotMap => mm.hits.length + mm.misses.length) h
      cases b <;> simp [addShot] at hlen
  · exact ⟨.step _ 0 0 false (.step _ 0 0 true .empty), by decide, by decide⟩

/-! ## C6: checkAllShipsSunk -/

/-- C6 counterexample: the standard {5,4,3,3,2} fleet occupies 17 cells, so
after 17 distinct recorded hits `checkAllShipsSunk` is already true, where
the claim asserts it is still false at 17 and first true at 18. -/
theorem allSunk_seventeen_hits :
    (createBoard stdFleet).map (fun b => checkAllShipsSunk b shotMap17) = .ok true
      ∧ shotMap17.hits.length = 17 ∧ shotMap17.hits.Nodup := by decide

/-- C6 (amended): checkAllShipsSunk is true exactly when the hit-entry count
equals the occupied-cell count, and for a standard {5,4,3,3,2} board
(17 occupied cells) it is false after 16 recorded hits and true after the
17th distinct hit coordinate is recorded. -/
theorem allSunk_count_eq :
    (∀ (b : Board) (m : ShotMap),
      checkAllShipsSunk b m = true ↔ m.hits.length = countOccupied b.grid)
    ∧ (createBoard stdFleet).map
        (fun b => (checkAllShipsSunk b shotMap16, checkAllShipsSunk b shotMap17))
        = .ok (false, true)
    ∧ shotMap16.hits.length = 16 ∧ shotMap17.hits.length = 17 ∧ shotMap17.hits.Nodup := by
  refine ⟨fun b m => ?_, by decide, by decide, by decide, by decide⟩
  simp [checkAllShipsSunk]

/-! ## C10: the no-touch rule is not enforced by createBoard/validateBoard -/

/-- C10: a {5,4,3,3,2} fleet whose first two ships touch vertically (rows 0
and 1), fully in-bounds and cell-disjoint, passes createBoard and
validateBoard, while isValidPlacement (the interactive placement check)
rejects placing the second ship next to the first. -/
theorem no_touch_not_enforced :
    (touchFleet.map Ship.size).Perm SHIP_SIZES
    ∧ (∀ s ∈ touchFleet, shipInBounds s)
    ∧ (∀ a ∈ touchFleet, ∀ b ∈ touchFleet, a ≠ b → ∀ c ∈ shipCells a, c ∉ shipCells b)
    ∧ (∃ a ∈ touchFleet, ∃ b ∈ touchFleet, a ≠ b ∧ shipsTouch a b)
    ∧ (createBoard touchFleet).map validateBoard = .ok (.ok true)
    ∧ (createBoard [⟨5, 0, 0, true⟩]).map
        (fun b => isValidPlacement b ⟨4, 0, 1, true⟩) = .ok false := by decide

/-! ## C8: phase monotonicity of the event handler -/

theorem phaseIdx_le_five (p : GamePhase) : phaseIdx p ≤ 5 := by
  cases p <;> decide

/-- C8 counterexample: from the PLAYING phase, a stale board_submitted event
for the local player moves the phase back to WAITING_FOR_OPPONENT_BOARD —
the handler regresses the phase. -/
theorem board_submitted_regresses :
    phaseIdx ((applyEvent List.length ctxA stPlaying
        (.board_submitted "a" false)).gamePhase)
      < phaseIdx stPlaying.gamePhase := by decide

/-- C8 (amended): applying any discrete game event other than
board_submitted never moves the phase backward; a board_submitted event sets
the phase unconditionally (to WAITING_FOR_OPPONENT_BOARD for the local
player's own board, to PLAYING when all boards are submitted) and can
therefore regress it. -/
theorem applyEvent_no_regress (H : List Nat → Nat) (ctx : ClientCtx)
    (s : ClientState) (e : GameEvent)
    (hne : ∀ p ab, e ≠ GameEvent.board_submitted p ab) :
    phaseIdx s.gamePhase ≤ phaseIdx ((applyEvent H ctx s e).gamePhase) := by
  cases e with
  | board_submitted p ab => exact absurd rfl (hne p ab)
  | game_over w =>
    simpa [applyEvent] using phaseIdx_le_five s.gamePhase
  | shot_fired p x y =>
    obtain ⟨acc, ga, pb, ps, pc⟩ := ctx
    cases heq : eqAddr p acc with
    | true => simp [applyEvent, heq]
    | false =>
      simp only [applyEvent, heq, Bool.not_false, if_pos]
      cases acc with
      | none => simp [handleOpponentShot]
      | some a =>
        cases ga with
        | none => simp [handleOpponentShot]
        | some g =>
          cases pb with
          | none => simp [handleOpponentShot]
          | some board =>
            cases ps with
            | none => simp [handleOpponentShot]
            | some salt =>
              cases hres : checkShotResult board x y with
              | error e => simp [handleOpponentShot, hres]
              | ok isHit =>
                cases hsp : generateShotProof H board x y isHit salt with
                | error e2 => simp [handleOpponentShot, hres, hsp]
                | ok inp =>
                  cases hge : generateGameEndProof H board
                      (addShot s.shotsAtPlayer x y isHit) salt with
                  | error e3 =>
                    simp only [handleOpponentShot, hres, hsp, hge]
                    split <;> simp
                  | ok inp2 =>
                    simp only [handleOpponentShot, hres, hsp, hge]
                    split
                    · simpa using phaseIdx_le_five s.gamePhase
                    · simp
  | shot_result p x y isHit =>
    by_cases hp : eqAddr p ctx.account <;> simp [applyEvent, hp]
  | player_joined a => simp [applyEvent]
  | contract_registered => simp [applyEvent]
  | game_started => simp [applyEvent]
  | session_state => simp [applyEvent]
  | chat => simp [applyEvent]
  | pong => simp [applyEvent]
  | errorEvent msg => simp [applyEvent]

/-- C8 witness: the amended theorem applied to a concrete game_over event
from the PLAYING phase. -/
theorem applyEvent_no_regress_witness :
    (∀ p ab, GameEvent.game_over "w" ≠ GameEvent.board_submitted p ab)
    ∧ phaseIdx stPlaying.gamePhase
        ≤ phaseIdx ((applyEvent List.length ctxA stPlaying (.game_over "w")).gamePhase) := by
  constructor
  · intro p ab h
    exact nomatch h
  · exact applyEvent_no_regress List.length ctxA stPlaying _
      (by intro p ab h; exact nomatch h)

end Battleship
